import Mathlib

/-!
Verification of the vacation-tracker backend (src/src/backend.js).

Dates are modelled at calendar-day granularity: a date is an `Int` counting
days since 1970-01-01, so `normalizeDate_` (which strips the time of day) is
the identity and `new Date(...).getTime()` comparisons become `Int`
comparisons.  A possibly-blank date cell is `Option Int` (`none` plays the
role of an empty cell / invalid date, whose `getTime()` is `NaN`: every
comparison against it is false).  JavaScript `getDay()` of day `d` is
`(d + 4) % 7` (day 0, 1970-01-01, was a Thursday), with 0 = Sunday and
6 = Saturday.
-/

/-- JavaScript `Date.getDay()` for day index `d`: 0 = Sunday .. 6 = Saturday. -/
def weekday (d : Int) : Int := (d + 4) % 7

/-- The loop-body test of `countBusinessDays_`: `day !== 0 && day !== 6`. -/
def isBusinessDay (d : Int) : Bool := weekday d != 0 && weekday d != 6

/-- The `while (cur <= e)` loop of `countBusinessDays_`, counting business
days among the `n` consecutive days starting at `s`. -/
def countBDGo (s : Int) : Nat → Nat
  | 0 => 0
  | n+1 => (if isBusinessDay s then 1 else 0) + countBDGo (s+1) n

/-- `countBusinessDays_(start, end)` of src/src/backend.js:707: 0 on a blank
argument (`!start || !end`), 0 when `end < start`, otherwise the weekday
count over the closed range. -/
def countBusinessDays : Option Int → Option Int → Nat
  | some s, some e => if e < s then 0 else countBDGo s (e - s + 1).toNat
  | _, _ => 0

/-- Whitespace test used by the JS trim model. -/
def isSpaceChar (c : Char) : Bool := c == ' ' || c == '\t' || c == '\n' || c == '\r'

/-- JS trim, implemented on the character list so that terms evaluate by
kernel reduction (the compiled builtin trim primitive does not reduce);
agrees with JS on this app's data. -/
def String.strTrim (s : String) : String :=
  String.mk (((s.data.dropWhile isSpaceChar).reverse.dropWhile isSpaceChar).reverse)

/-- ASCII lower-casing of one character (JS `toLowerCase` on this app's
alphabetic keys). -/
def lowerChar (c : Char) : Char :=
  if 65 ≤ c.toNat && c.toNat ≤ 90 then Char.ofNat (c.toNat + 32) else c

/-- JS `String.prototype.toLowerCase`, character-list implementation. -/
def String.strToLower (s : String) : String := String.mk (s.data.map lowerChar)

/-- Does the second list start with the first one? -/
def listStartsWith {α : Type} [BEq α] : List α → List α → Bool
  | _, [] => true
  | [], _ :: _ => false
  | a :: t, b :: u => a == b && listStartsWith t u

/-- Does `pat` occur as a contiguous sublist? (JS `String.prototype.includes`.) -/
def listHasSub {α : Type} [BEq α] (pat : List α) : List α → Bool
  | [] => pat.isEmpty
  | a :: t => listStartsWith (a :: t) pat || listHasSub pat t

/-- One data row of the `Solicitudes` sheet (header row excluded).  Sheet
columns: 1 timestamp (not claim-relevant, omitted), 2 email, 3 empleado,
4 fecha inicio, 5 fecha fin, 6 estado, 7 días, 8 calendar event id.  A blank
días cell reads back as 0 (`Number('') || 0`), so `dias` is a plain `Int`;
a blank event-id cell is `none`. -/
structure Solicitud where
  email : String
  empleado : String
  ini : Option Int
  fin : Option Int
  estado : String
  dias : Int
  nota : String
  eventId : Option String
deriving Repr, DecidableEq

/-- One data row of the `Empleados` sheet: columns name, email, team,
SaldoHR, usados, and the optional `SaldoVacaciones` override column
(`remainingCol`; whether that header exists at all is `State.hasSaldoCol`). -/
structure Empleado where
  name : String
  email : String
  team : String
  saldoHR : Int
  usados : Int
  remainingCol : Int
deriving Repr, DecidableEq

/-- An external all-day calendar event; `endD` is exclusive, as in
`createAllDayEvent`/`setAllDayDates`. -/
structure CalEvent where
  title : String
  startD : Option Int
  endD : Option Int
deriving Repr, DecidableEq

/-- The shared mutable store: both sheets plus the external calendar
(an id-keyed association list; `nextEvId` feeds deterministic fresh ids). -/
structure State where
  solicitudes : List Solicitud
  empleados : List Empleado
  hasSaldoCol : Bool
  cal : List (String × CalEvent)
  nextEvId : Nat
deriving Repr, DecidableEq

/-- Injection points for an exception raised inside `processRequestRow_`
(a storage failure at the días write, at `recalcEmpleados_`, or at
`sortSolicitudesByFechaInicio_`). -/
inductive FailPoint where
  | diasWrite
  | recalcStep
  | sortStep
deriving Repr, DecidableEq

/-- Per-call environment: the authenticated caller, the manager roster
(`getManagerEmails_`), today's date, and the outcomes of the external
collaborators (rate limiter, lock service, mailer, calendar deletion). -/
structure Env where
  userEmail : String
  managers : List String
  today : Int
  rateLimited : Bool
  lockBusy : Bool
  mailOk : Bool
  calDeleteFails : Bool
  rowProcFail : Option FailPoint
deriving Repr, DecidableEq

/-- Result of `sendEmailSafe_` (never throws). -/
structure MailResult where
  success : Bool
  error : Option String
deriving Repr, DecidableEq

/-- The `{ userNotified, managersNotified }` record `processRequestRow_`
returns. -/
structure NotifyRec where
  userNotified : MailResult
  managersNotified : MailResult
deriving Repr, DecidableEq

/-- Typed rendering of the thrown error messages (each constructor carries
exactly the data interpolated into the corresponding message string). -/
inductive Err where
  | rateLimited
  | busy
  | pastDate
  | minAdvance
  | conflict
  | notFoundOrDenied
  | cannotCancel (status : String)
  | unauthorizedManager
  | insufficientBalance (remaining : Int) (requested : Int)
  | editDenied
  | invalidEditState (status : String)
  | storage
deriving Repr, DecidableEq

/-- Observable lock events of an API call (`LockService` acquire/release). -/
inductive Ev where
  | lockWait
  | lockRelease
deriving Repr, DecidableEq

/-- JavaScript `est.includes('Aprobado')`: substring occurrence. -/
def containsAprobado (s : String) : Bool := listHasSub "Aprobado".data s.data

/-- The status filter shared by both overlap scanners:
`est !== 'Pendiente' && !est.includes('Aprobado')` ⇒ skip, i.e. a row is
considered iff its estado is `Pendiente` or contains `Aprobado`. -/
def statusActive (est : String) : Bool := est == "Pendiente" || containsAprobado est

/-- `s0 <= e1 && s1 <= e0` on `getTime()` values; a blank/invalid date is
`NaN` and every `NaN` comparison is false. -/
def overlapB : Option Int → Option Int → Option Int → Option Int → Bool
  | some s0, some e0, some s1, some e1 => decide (s0 ≤ e1) && decide (s1 ≤ e0)
  | _, _, _, _ => false

/-- `normalizeDate_(fin) >= normalizeDate_(ini)` with NaN-on-blank. -/
def dateGe : Option Int → Option Int → Bool
  | some f, some i => decide (i ≤ f)
  | _, _ => false

/-- The body test of the `hasOverlapPendingOrApprovedSameEmployee_` loop at
absolute row index `j` (sheet row `j + 2`): not the row being edited, same
trimmed employee name, active status, and closed-interval overlap. -/
def sameEmpHit (empSearch : String) (s e : Option Int) (cur : Int) (j : Nat)
    (r : Solicitud) : Bool :=
  decide ((j : Int) + 2 ≠ cur) &&
    (r.empleado.strTrim == empSearch && statusActive r.estado &&
      overlapB s e r.ini r.fin)

/-- The scan loop of `hasOverlapPendingOrApprovedSameEmployee_`, carrying the
list index `j` of the head row (sheet row `j + 2`). -/
def findSameEmp (empSearch : String) (s e : Option Int) (cur : Int) :
    Nat → List Solicitud → Option (Int × String)
  | _, [] => none
  | j, r :: rest =>
    if (j : Int) + 2 = cur then findSameEmp empSearch s e cur (j+1) rest
    else if r.empleado.strTrim == empSearch && statusActive r.estado &&
        overlapB s e r.ini r.fin then
      some ((j : Int) + 2, r.estado)
    else findSameEmp empSearch s e cur (j+1) rest

/-- `hasOverlapPendingOrApprovedSameEmployee_` of src/src/backend.js:855:
first row (excluding `currentRow`) of the same trimmed employee in status
`Pendiente` or containing `Aprobado` whose range overlaps the candidate;
returns its sheet row and estado. -/
def hasOverlapPendingOrApprovedSameEmployee (rows : List Solicitud)
    (empleado : String) (start fin : Option Int) (currentRow : Int) :
    Option (Int × String) :=
  findSameEmp empleado.strTrim start fin currentRow 0 rows

/-- Modelled from the claim wording (spec §4.2): the statuses the spec says
the same-employee scan considers, i.e. `Pendiente`, `Necesita Revisión`, or
any `Aprobado` variant.  Kept separate from `statusActive` (which is what
the source implements) so the two can be compared. -/
def claimedActiveStatus (est : String) : Bool :=
  est == "Pendiente" || est == "Necesita Revisión" || containsAprobado est

/-- Modelled from the claim wording (spec §4.2): does any other row of the
same requester in a claimed-active status overlap the candidate range? -/
def claimedSameEmpConflict (rows : List Solicitud) (empleado : String)
    (start fin : Option Int) (currentRow : Int) : Bool :=
  rows.enum.any fun p =>
    decide ((p.1 : Int) + 2 ≠ currentRow) && (p.2.empleado.strTrim == empleado.strTrim) &&
      claimedActiveStatus p.2.estado && overlapB start fin p.2.ini p.2.fin

/-- Business-rule constants of src/src/backend.js:37-44. -/
def ENFORCE_BALANCE_BEFORE_EVENT : Bool := true

def MIN_ADVANCE_DAYS : Int := 0

def ENFORCE_MIN_ADVANCE_DAYS : Bool := false

/-- Read the request row at 1-based sheet row `row` (header is sheet row 1,
so list index `row - 2`); out-of-range reads yield `none` (blank cells). -/
def getSol (st : State) (row : Int) : Option Solicitud :=
  if row < 2 then none else st.solicitudes[(row - 2).toNat]?

/-- Point update of a list (identity when the index is out of range). -/
def updateNth {α : Type} (f : α → α) : List α → Nat → List α
  | [], _ => []
  | a :: t, 0 => f a :: t
  | a :: t, n+1 => a :: updateNth f t n

/-- Write to the request row at sheet row `row` (no-op out of range). -/
def setSolRow (st : State) (row : Int) (f : Solicitud → Solicitud) : State :=
  { st with solicitudes := if row < 2 then st.solicitudes
      else updateNth f st.solicitudes (row - 2).toNat }

/-- The employee-row search shared by `getEmployeeTeam_`,
`getEmployeeTotals_` and `getDashboardData`: first row whose trimmed
lower-cased name or email equals the trimmed lower-cased key. -/
def findEmp (emps : List Empleado) (search : String) : Option Empleado :=
  emps.find? fun e =>
    e.name.strTrim.strToLower == search || e.email.strTrim.strToLower == search

/-- `getEmployeeTeam_` of src/src/backend.js:877. -/
def getEmployeeTeam (st : State) (empleado : String) : String :=
  match findEmp st.empleados (empleado.strTrim.strToLower) with
  | some e => e.team
  | none => ""

/-- `_buscarNombrePorEmail` of src/src/backend.js:650 (email-keyed only;
falls back to the email itself). -/
def buscarNombrePorEmail (st : State) (email : String) : String :=
  match st.empleados.find? (fun e => e.email.strTrim.strToLower == email.strTrim.strToLower) with
  | some e => e.name
  | none => email

/-- Result record of `getEmployeeTotals_`. -/
structure Totals where
  total : Int
  usados : Int
  remaining : Int
  row : Int
deriving Repr, DecidableEq

/-- `getEmployeeTotals_` of src/src/backend.js:662: first row matching the
trimmed lower-cased key by name or email; `remaining` comes from the
`SaldoVacaciones` column when that header exists, else `saldoHR - usados`;
all-zero totals (row `-1`) when no row matches. -/
def getEmployeeTotals (st : State) (empleadoOrEmail : String) : Totals :=
  match findEmp st.empleados (empleadoOrEmail.strTrim.strToLower) with
  | some e =>
    { total := e.saldoHR, usados := e.usados
      remaining := if st.hasSaldoCol then e.remainingCol else e.saldoHR - e.usados
      row := 0 }
  | none => { total := 0, usados := 0, remaining := 0, row := -1 }

/-- Per-name accumulation of `recalcEmpleados_`: the running total the
`usedByEmp` dictionary holds at key `name` after the scan — the sum of
`dias` over requests whose estado contains `Aprobado` and whose trimmed
empleado equals `name`. -/
def usedFor (rows : List Solicitud) (name : String) : Int :=
  rows.foldl
    (fun acc r =>
      if containsAprobado r.estado && r.empleado.strTrim == name then acc + r.dias
      else acc)
    0

/-- `recalcEmpleados_` of src/src/backend.js:801: rewrites every employee's
`usados` column to `usedByEmp[trim(name)] || 0`; nothing else changes. -/
def recalcEmpleados (st : State) : State :=
  { st with empleados := st.empleados.map fun e =>
      { e with usados := usedFor st.solicitudes e.name.strTrim } }

/-- Sort key of `sortSolicitudesByFechaInicio_` (column 4 ascending; blank
dates first — the relative order of blanks is immaterial to every claim). -/
def leIni (a b : Solicitud) : Bool :=
  match a.ini, b.ini with
  | some x, some y => decide (x ≤ y)
  | none, _ => true
  | some _, none => false

def insertByIni (a : Solicitud) : List Solicitud → List Solicitud
  | [] => [a]
  | b :: t => if leIni a b then a :: b :: t else b :: insertByIni a t

def sortByIni : List Solicitud → List Solicitud
  | [] => []
  | a :: t => insertByIni a (sortByIni t)

/-- `sortSolicitudesByFechaInicio_` of src/src/backend.js:726 (stable sort
of the data rows by fecha inicio ascending). -/
def sortSolicitudes (st : State) : State :=
  { st with solicitudes := sortByIni st.solicitudes }

/-- `cal.getEventById(id)`. -/
def calLookup (cal : List (String × CalEvent)) (id : String) : Option CalEvent :=
  (cal.find? (fun p => p.1 == id)).map (·.2)

/-- `ev.setTitle(title); ev.setAllDayDates(s, e)` on the event named `id`. -/
def calUpdate (cal : List (String × CalEvent)) (id : String) (title : String)
    (s e : Option Int) : List (String × CalEvent) :=
  cal.map fun p => if p.1 == id then (p.1, ⟨title, s, e⟩) else p

/-- `ev.deleteEvent()` on the event named `id`. -/
def calDelete (cal : List (String × CalEvent)) (id : String) :
    List (String × CalEvent) :=
  cal.filter fun p => p.1 != id

/-- Deterministic fresh id for `cal.createAllDayEvent`. -/
def freshEvId (st : State) : String := "ev" ++ toString st.nextEvId

/-- `sendEmailSafe_` of src/src/backend.js:623: wraps the mailer, catching
its failure into a `{success, error}` record (message bodies are elided —
no claim depends on them). -/
def sendEmailSafe (env : Env) : MailResult :=
  if env.mailOk then ⟨true, none⟩ else ⟨false, some "send failed"⟩

/-- `notifyManagersCompact_` of src/src/backend.js:749: first manager is the
recipient, the rest are cc'd; error record when the roster is empty. -/
def notifyManagersCompact (env : Env) : MailResult :=
  if env.managers.isEmpty then ⟨false, some "No managers found"⟩
  else sendEmailSafe env

/-- Return record of `hasTeamOverlapPendingOrApproved_`. -/
structure TeamConflict where
  row : Int
  empleado : String
  estado : String
  team : String
deriving Repr, DecidableEq

/-- The scan loop of `hasTeamOverlapPendingOrApproved_` (status filter, then
non-empty different employee, then same team, then overlap; `emp2` is
trimmed but compared against the untrimmed `empleado` argument, as in the
source). -/
def findTeamOverlap (st : State) (empleado team : String) (s e : Option Int)
    (cur : Int) : Nat → List Solicitud → Option TeamConflict
  | _, [] => none
  | j, r :: rest =>
    if (j : Int) + 2 = cur then findTeamOverlap st empleado team s e cur (j+1) rest
    else if !statusActive r.estado then findTeamOverlap st empleado team s e cur (j+1) rest
    else if r.empleado.strTrim == "" || r.empleado.strTrim == empleado then
      findTeamOverlap st empleado team s e cur (j+1) rest
    else if getEmployeeTeam st r.empleado.strTrim == "" ||
        getEmployeeTeam st r.empleado.strTrim != team then
      findTeamOverlap st empleado team s e cur (j+1) rest
    else if overlapB s e r.ini r.fin then
      some ⟨(j : Int) + 2, r.empleado.strTrim, r.estado, team⟩
    else findTeamOverlap st empleado team s e cur (j+1) rest

/-- `hasTeamOverlapPendingOrApproved_` of src/src/backend.js:828. -/
def hasTeamOverlapPendingOrApproved (st : State) (empleado : String)
    (s e : Option Int) (cur : Int) : Option TeamConflict :=
  if getEmployeeTeam st empleado == "" then none
  else findTeamOverlap st empleado (getEmployeeTeam st empleado) s e cur 0 st.solicitudes

/-- The `try` body of `processRequestRow_` (src/src/backend.js:495):
sequential effects, short-circuiting with `Err.storage` at the injected
failure point (`Env.rowProcFail`) to model an exception thrown by a storage
call part-way through; the third component is the pending exception. -/
def processRequestRowBody (st0 : State) (row : Int) (env : Env) :
    State × NotifyRec × Option Err :=
  let defaultMail : MailResult := ⟨false, none⟩
  let st :=
    match getSol st0 row with
    | some r =>
      if r.estado == "" then
        setSolRow st0 row (fun r => { r with estado := "Pendiente" })
      else st0
    | none => st0
  let email := ((getSol st row).map (·.email)).getD ""
  let empleado := ((getSol st row).map (·.empleado)).getD ""
  let ini := (getSol st row).bind (·.ini)
  let fin := (getSol st row).bind (·.fin)
  let _team := getEmployeeTeam st empleado.strTrim
  let isValid := empleado != "" && ini.isSome && fin.isSome && dateGe fin ini
  if !isValid then
    (setSolRow st row (fun r => { r with nota := "Invalid Data" }),
      ⟨defaultMail, defaultMail⟩, none)
  else
    let dias := countBusinessDays ini fin
    if env.rowProcFail == some FailPoint.diasWrite then
      (st, ⟨defaultMail, defaultMail⟩, some Err.storage)
    else
      let st := setSolRow st row (fun r => { r with dias := (dias : Int) })
      let teamOv := hasTeamOverlapPendingOrApproved st empleado ini fin row
      let selfOv := hasOverlapPendingOrApprovedSameEmployee st.solicitudes empleado ini fin row
      let branch : State × MailResult × Bool :=
        match teamOv with
        | some tOv =>
          (setSolRow st row (fun r =>
              { r with
                estado := "Necesita Revisión"
                nota := "⚠️ Conflict with " ++ tOv.empleado ++ " (" ++ tOv.estado ++ ")" }),
            (if email != "" then sendEmailSafe env else defaultMail), true)
        | none =>
          match selfOv with
          | some _ =>
            (setSolRow st row (fun r =>
                { r with estado := "Necesita Revisión", nota := "⚠️ Duplicate Request" }),
              defaultMail, false)
          | none =>
            (st, (if email != "" then sendEmailSafe env else defaultMail), true)
      let managersNot := if branch.2.2 then notifyManagersCompact env else defaultMail
      if env.rowProcFail == some FailPoint.recalcStep then
        (branch.1, ⟨branch.2.1, managersNot⟩, some Err.storage)
      else
        let st2 := recalcEmpleados branch.1
        if env.rowProcFail == some FailPoint.sortStep then
          (st2, ⟨branch.2.1, managersNot⟩, some Err.storage)
        else
          (sortSolicitudes st2, ⟨branch.2.1, managersNot⟩, none)

/-- `processRequestRow_` of src/src/backend.js:495: the whole body runs
inside `try { ... } catch (e) { console.error(...) }`, so a pending
exception is swallowed and the `{userNotified, managersNotified}` record is
returned in every case. -/
def processRequestRow (st : State) (row : Int) (env : Env) : State × NotifyRec :=
  ((processRequestRowBody st row env).1, (processRequestRowBody st row env).2.1)

/-- The event-title ternary of src/src/backend.js:769: the employee name,
flagged `(EXCEPTION)` exactly for the exception variant. -/
def eventTitle (estado empleado : String) : String :=
  if estado == "Aprobado (Excepción)" then "Vacations (EXCEPTION): " ++ empleado
  else "Vacations: " ++ empleado

/-- `handleEstadoChange_` of src/src/backend.js:757: for an approved estado,
create or update the all-day calendar event over `[start, end + 1)` and
persist a newly created event's id; otherwise best-effort-delete any
existing event and clear the reference (the clear is skipped when the
delete throws, which `Env.calDeleteFails` injects).  The approval /
state-change emails have no effect on the modelled state and are elided. -/
def handleEstadoChange (st : State) (row : Int) (_prevEstado : String) (env : Env) :
    State :=
  let r? := getSol st row
  let empleado := (r?.map (·.empleado)).getD ""
  let start := r?.bind (·.ini)
  let fin := r?.bind (·.fin)
  let estado := (r?.map (·.estado)).getD ""
  let eventId := r?.bind (·.eventId)
  if estado == "Aprobado" || estado == "Aprobado (Excepción)" then
    let title := eventTitle estado empleado
    let s := start
    let e := fin.map (· + 1)
    match eventId, eventId.bind (calLookup st.cal) with
    | some id, some _ => { st with cal := calUpdate st.cal id title s e }
    | _, _ =>
      let nid := freshEvId st
      let st1 := { st with
        cal := st.cal ++ [(nid, ⟨title, s, e⟩)]
        nextEvId := st.nextEvId + 1 }
      setSolRow st1 row (fun r => { r with eventId := some nid })
  else
    match eventId with
    | none => st
    | some id =>
      if (calLookup st.cal id).isSome && env.calDeleteFails then st
      else
        let cal1 := if (calLookup st.cal id).isSome then calDelete st.cal id else st.cal
        setSolRow { st with cal := cal1 } row (fun r => { r with eventId := none })

/-- `apiCreateRequest` of src/src/backend.js:304.  The requester name is
`_buscarNombrePorEmail(userEmail) || userEmail` (backend.js:316): a matched
roster row whose name cell is blank falls back to the caller's email.  The
third component is the list of lock events (`waitLock` inside its own
try/catch, then the body inside `try ... finally lock.releaseLock()`, so
both events bracket the body on success and failure alike). -/
def apiCreateRequest (st : State) (env : Env) (startD endD : Int) :
    Except Err NotifyRec × State × List Ev :=
  if env.rateLimited then (Except.error Err.rateLimited, st, [])
  else if env.lockBusy then (Except.error Err.busy, st, [])
  else
    let body : Except Err NotifyRec × State :=
      let nombre :=
        if buscarNombrePorEmail st env.userEmail == "" then env.userEmail
        else buscarNombrePorEmail st env.userEmail
      if startD < env.today then (Except.error Err.pastDate, st)
      else if ENFORCE_MIN_ADVANCE_DAYS && decide (0 < MIN_ADVANCE_DAYS) &&
          decide (startD - env.today < MIN_ADVANCE_DAYS) then
        (Except.error Err.minAdvance, st)
      else
        match hasOverlapPendingOrApprovedSameEmployee st.solicitudes nombre
            (some startD) (some endD) (-1) with
        | some _ => (Except.error Err.conflict, st)
        | none =>
          let newRow : Solicitud :=
            { email := env.userEmail, empleado := nombre, ini := some startD,
              fin := some endD, estado := "Pendiente", dias := 0, nota := "",
              eventId := none }
          let st1 := { st with solicitudes := st.solicitudes ++ [newRow] }
          let newRowIndex : Int := (st1.solicitudes.length : Int) + 1
          let pr := processRequestRow st1 newRowIndex env
          (Except.ok pr.2, pr.1)
    (body.1, body.2, [Ev.lockWait, Ev.lockRelease])

/-- `apiProcessRequest` of src/src/backend.js:363 (manager decision).  Note:
the source acquires no lock here, so the event list is empty. -/
def apiProcessRequest (st : State) (env : Env) (rowId : Int) (action : String) :
    Except Err Unit × State × List Ev :=
  if !(env.managers.contains env.userEmail) then
    (Except.error Err.unauthorizedManager, st, [])
  else
    let empleado := ((getSol st rowId).map (·.empleado)).getD ""
    let dias := ((getSol st rowId).map (·.dias)).getD 0
    let prevEstado := ((getSol st rowId).map (·.estado)).getD ""
    let balErr : Option Err :=
      if action == "Aprobado" && ENFORCE_BALANCE_BEFORE_EVENT then
        if (getEmployeeTotals st empleado).remaining - dias < 0 then
          some (Err.insufficientBalance (getEmployeeTotals st empleado).remaining dias)
        else none
      else none
    match balErr with
    | some err => (Except.error err, st, [])
    | none =>
      let st1 := setSolRow st rowId (fun r => { r with estado := action })
      let st2 := handleEstadoChange st1 rowId prevEstado env
      (Except.ok (), recalcEmpleados st2, [])

/-- `apiCancelRequest` of src/src/backend.js:400: ownership by request
email (the manager roster is never consulted), cancellable only from
`Pendiente`/`Necesita Revisión`; then status `Cancelado`, best-effort
calendar cleanup (the `clearContent` sits after `deleteEvent` inside the
same `try`, so a throwing delete skips the clear), then recalc. -/
def apiCancelRequest (st : State) (env : Env) (rowId : Int) :
    Except Err Unit × State × List Ev :=
  if env.rateLimited then (Except.error Err.rateLimited, st, [])
  else if env.lockBusy then (Except.error Err.busy, st, [])
  else
    let body : Except Err Unit × State :=
      let found :=
        match getSol st rowId with
        | some r => r.email.strTrim.strToLower == env.userEmail.strToLower
        | none => false
      let status := ((getSol st rowId).map (·.estado)).getD ""
      if !found then (Except.error Err.notFoundOrDenied, st)
      else if status != "Pendiente" && status != "Necesita Revisión" then
        (Except.error (Err.cannotCancel status), st)
      else
        let st1 := setSolRow st rowId (fun r => { r with estado := "Cancelado" })
        let st2 :=
          match (getSol st1 rowId).bind (·.eventId) with
          | none => st1
          | some id =>
            if (calLookup st1.cal id).isSome && env.calDeleteFails then st1
            else
              let cal1 :=
                if (calLookup st1.cal id).isSome then calDelete st1.cal id else st1.cal
              setSolRow { st1 with cal := cal1 } rowId (fun r => { r with eventId := none })
        (Except.ok (), recalcEmpleados st2)
    (body.1, body.2, [Ev.lockWait, Ev.lockRelease])

/-- Modelled from the spec: the ownership, status, date and overlap checks
of `apiEditRequest` are elided in the source — src/src/backend.js:465-466 is
only the comment "Security & State check logic (abbreviated for brevity,
same as Create logic) ... Checks ownership, status, valid dates, overlaps".
Following spec §4.4 Edit: only the owning requester may edit, only while the
status is `Pendiente` or `Necesita Revisión`, and dates/overlap are
revalidated exactly as Create with the request's own row excluded from the
overlap scan. -/
def editChecks (st : State) (env : Env) (rowId : Int) (startD endD : Int) :
    Option Err :=
  match getSol st rowId with
  | none => some Err.notFoundOrDenied
  | some r =>
    if !(r.email.strTrim.strToLower == env.userEmail.strToLower) then some Err.editDenied
    else if r.estado != "Pendiente" && r.estado != "Necesita Revisión" then
      some (Err.invalidEditState r.estado)
    else if startD < env.today then some Err.pastDate
    else
      match hasOverlapPendingOrApprovedSameEmployee st.solicitudes r.empleado
          (some startD) (some endD) rowId with
      | some _ => some Err.conflict
      | none => none

/-- `apiEditRequest` of src/src/backend.js:454: validation (`editChecks`,
see its docstring), then write the new dates, reset the status to
`Pendiente`, and re-run `processRequestRow_`. -/
def apiEditRequest (st : State) (env : Env) (rowId : Int) (startD endD : Int) :
    Except Err Unit × State × List Ev :=
  if env.rateLimited then (Except.error Err.rateLimited, st, [])
  else if env.lockBusy then (Except.error Err.busy, st, [])
  else
    let body : Except Err Unit × State :=
      match editChecks st env rowId startD endD with
      | some err => (Except.error err, st)
      | none =>
        let st1 := setSolRow st rowId (fun r =>
          { r with ini := some startD, fin := some endD, estado := "Pendiente" })
        let pr := processRequestRow st1 rowId env
        (Except.ok (), pr.1)
    (body.1, body.2, [Ev.lockWait, Ev.lockRelease])

/-- Concrete fixture: an overlapping same-employee request sitting in
`Necesita Revisión`. -/
def c1Row : Solicitud :=
  { email := "ana@x.com", empleado := "Ana", ini := some 0, fin := some 0
    estado := "Necesita Revisión", dias := 1, nota := "", eventId := none }

/-- Concrete fixture: a pending 5-business-day request by Ana. -/
def c4Row : Solicitud :=
  { email := "ana@x.com", empleado := "Ana", ini := some 10, fin := some 16
    estado := "Pendiente", dias := 5, nota := "", eventId := none }

/-- Concrete fixture: employee Ana with 3 granted days, none used. -/
def c4Emp : Empleado :=
  { name := "Ana", email := "ana@x.com", team := "T", saldoHR := 3, usados := 0
    remainingCol := 0 }

/-- Concrete fixture: one request, one employee, empty calendar. -/
def c4St : State :=
  { solicitudes := [c4Row], empleados := [c4Emp], hasSaldoCol := false
    cal := [], nextEvId := 0 }

/-- Concrete fixture: a manager caller with all collaborators healthy. -/
def c4Env : Env :=
  { userEmail := "boss@x.com", managers := ["boss@x.com"], today := 0
    rateLimited := false, lockBusy := false, mailOk := true
    calDeleteFails := false, rowProcFail := none }

/-- Concrete fixture: Ana's pending request holding a calendar event
reference. -/
def c8Row : Solicitud := { c4Row with eventId := some "e1" }

/-- Concrete fixture: table whose calendar holds the referenced event. -/
def c8St : State :=
  { solicitudes := [c8Row], empleados := [c4Emp], hasSaldoCol := false
    cal := [("e1", { title := "Vacations: Ana", startD := some 10, endD := some 17 })]
    nextEvId := 1 }

/-- Concrete fixture: the owner calling while the calendar delete throws. -/
def c8Env : Env :=
  { userEmail := "ana@x.com", managers := [], today := 0
    rateLimited := false, lockBusy := false, mailOk := true
    calDeleteFails := true, rowProcFail := none }

/-- Concrete fixture: an approved request with no event reference yet, on a
table with an empty calendar. -/
def c7St : State :=
  { solicitudes := [{ c4Row with estado := "Aprobado" }], empleados := [c4Emp]
    hasSaldoCol := false, cal := [], nextEvId := 0 }

theorem countBDGo_eq_card (n : Nat) :
    ∀ s : Int, countBDGo s n =
      ((Finset.Icc s (s + n - 1)).filter (fun d => isBusinessDay d = true)).card := by
  induction n with
  | zero =>
    intro s
    rw [Finset.Icc_eq_empty (by intro h; omega)]
    simp [countBDGo]
  | succ n ih =>
    intro s
    have hins : Finset.Icc s (s + (n+1 : Nat) - 1) =
        insert s (Finset.Icc (s+1) ((s+1) + n - 1)) := by
      ext x
      simp only [Finset.mem_Icc, Finset.mem_insert]
      push_cast
      omega
    have hnot : s ∉ (Finset.Icc (s+1) ((s+1) + n - 1)).filter
        (fun d => isBusinessDay d = true) := by
      simp only [Finset.mem_filter, Finset.mem_Icc]
      omega
    rw [hins, Finset.filter_insert]
    by_cases hb : isBusinessDay s = true
    · rw [if_pos hb, Finset.card_insert_of_not_mem hnot]
      simp only [countBDGo, hb, if_pos, ih (s+1), if_true]
      omega
    · rw [if_neg hb]
      simp only [countBDGo, if_neg hb]
      simpa using ih (s+1)

theorem countBusinessDays_eq_card (s e : Int) :
    countBusinessDays (some s) (some e) =
      ((Finset.Icc s e).filter (fun d => isBusinessDay d = true)).card := by
  by_cases h : e < s
  · rw [Finset.Icc_eq_empty (by intro hc; omega)]
    simp [countBusinessDays, if_pos h]
  · simp only [countBusinessDays, if_neg h]
    rw [countBDGo_eq_card]
    have h2 : s + ((e - s + 1).toNat : Int) - 1 = e := by omega
    rw [h2]

theorem countBusinessDays_mono (s e s' e' : Int) (h1 : s' ≤ s) (h2 : e ≤ e') :
    countBusinessDays (some s) (some e) ≤ countBusinessDays (some s') (some e') := by
  rw [countBusinessDays_eq_card, countBusinessDays_eq_card]
  exact Finset.card_le_card
    (Finset.filter_subset_filter _ (Finset.Icc_subset_Icc h1 h2))

theorem countBusinessDays_single (d : Int) (h : isBusinessDay d = true) :
    countBusinessDays (some d) (some d) = 1 := by
  rw [countBusinessDays_eq_card, Finset.Icc_self, Finset.filter_singleton, if_pos h]
  rfl

theorem countBusinessDays_week (d : Int) (hw : weekday d = 1) :
    countBusinessDays (some d) (some (d + 6)) = 5 := by
  simp only [countBusinessDays, if_neg (by omega : ¬ d + 6 < d)]
  have h7 : (d + 6 - d + 1).toNat = 7 := by omega
  rw [h7]
  simp only [weekday] at hw
  have w0 : weekday d = 1 := by simp only [weekday]; omega
  have w1 : weekday (d+1) = 2 := by simp only [weekday]; omega
  have w2 : weekday (d+1+1) = 3 := by simp only [weekday]; omega
  have w3 : weekday (d+1+1+1) = 4 := by simp only [weekday]; omega
  have w4 : weekday (d+1+1+1+1) = 5 := by simp only [weekday]; omega
  have w5 : weekday (d+1+1+1+1+1) = 6 := by simp only [weekday]; omega
  have w6 : weekday (d+1+1+1+1+1+1) = 0 := by simp only [weekday]; omega
  simp [countBDGo, isBusinessDay, w0, w1, w2, w3, w4, w5, w6]

/-- C5: `countBusinessDays_` returns 0 when `end < start`; otherwise it
returns the number of calendar days in the closed range whose weekday is not
Saturday or Sunday; a single weekday gives 1, a Monday-to-Sunday week gives
5, and the count is monotone as the range widens. -/
theorem C5_countBusinessDays_spec :
    (∀ s e : Int, e < s → countBusinessDays (some s) (some e) = 0) ∧
    (∀ s e : Int, countBusinessDays (some s) (some e) =
      ((Finset.Icc s e).filter (fun d => isBusinessDay d = true)).card) ∧
    (∀ d : Int, isBusinessDay d = true → countBusinessDays (some d) (some d) = 1) ∧
    (∀ d : Int, weekday d = 1 → countBusinessDays (some d) (some (d + 6)) = 5) ∧
    (∀ s e s' e' : Int, s' ≤ s → e ≤ e' →
      countBusinessDays (some s) (some e) ≤ countBusinessDays (some s') (some e')) := by
  refine ⟨?_, ?_, ?_, ?_, ?_⟩
  · intro s e h
    simp [countBusinessDays, if_pos h]
  · exact countBusinessDays_eq_card
  · exact countBusinessDays_single
  · exact countBusinessDays_week
  · exact countBusinessDays_mono

/-- Witness for C5 at concrete inputs: day 4 is 1970-01-05, a Monday. -/
theorem C5_countBusinessDays_spec_witness :
    countBusinessDays (some 0) (some (-1)) = 0 ∧
    countBusinessDays (some 4) (some 4) = 1 ∧
    countBusinessDays (some 4) (some 10) = 5 ∧
    countBusinessDays (some 4) (some 5) ≤ countBusinessDays (some 3) (some 10) := by
  refine ⟨?_, ?_, ?_, ?_⟩
  · exact C5_countBusinessDays_spec.1 0 (-1) (by decide)
  · exact C5_countBusinessDays_spec.2.2.1 4 (by decide)
  · exact C5_countBusinessDays_spec.2.2.2.1 4 (by decide)
  · exact C5_countBusinessDays_spec.2.2.2.2 4 5 3 10 (by decide) (by decide)

theorem find?_first {α : Type} (p : α → Bool) :
    ∀ (l : List α) (a : α), l.find? p = some a →
      ∃ l1 l2, l = l1 ++ a :: l2 ∧ p a = true ∧ ∀ b ∈ l1, p b = false := by
  intro l
  induction l with
  | nil => intro a h; simp [List.find?] at h
  | cons x t ih =>
    intro a h
    by_cases hx : p x = true
    · rw [List.find?_cons_of_pos _ hx] at h
      obtain rfl : x = a := by injection h
      exact ⟨[], t, rfl, hx, by intro b hb; simp at hb⟩
    · rw [List.find?_cons_of_neg _ (by simp [hx])] at h
      obtain ⟨l1, l2, he, hp, hall⟩ := ih a h
      refine ⟨x :: l1, l2, by simp [he], hp, ?_⟩
      intro b hb
      rcases List.mem_cons.mp hb with rfl | hb2
      · simpa using hx
      · exact hall b hb2

theorem findSameEmp_eq (empSearch : String) (s e : Option Int) (cur : Int) :
    ∀ (rows : List Solicitud) (j0 : Nat),
      findSameEmp empSearch s e cur j0 rows =
        ((rows.enumFrom j0).find? (fun pr => sameEmpHit empSearch s e cur pr.1 pr.2)).map
          (fun pr => ((pr.1 : Int) + 2, pr.2.estado)) := by
  intro rows
  induction rows with
  | nil => intro j0; simp [findSameEmp, List.enumFrom]
  | cons r t ih =>
    intro j0
    simp only [findSameEmp, List.enumFrom]
    by_cases hc : (j0 : Int) + 2 = cur
    · have hhit : sameEmpHit empSearch s e cur j0 r = false := by
        simp [sameEmpHit, hc]
      rw [if_pos hc, ih (j0+1), List.find?_cons]
      simp [hhit]
    · rw [if_neg hc]
      by_cases hb : (r.empleado.strTrim == empSearch && statusActive r.estado &&
          overlapB s e r.ini r.fin) = true
      · have hhit : sameEmpHit empSearch s e cur j0 r = true := by
          simp [sameEmpHit, hc, hb]
        rw [if_pos hb, List.find?_cons]
        simp [hhit]
      · have hb2 : (r.empleado.strTrim == empSearch && statusActive r.estado &&
            overlapB s e r.ini r.fin) = false := by
          simpa using hb
        have hhit : sameEmpHit empSearch s e cur j0 r = false := by
          simp [sameEmpHit, hb2]
        rw [if_neg hb, ih (j0+1), List.find?_cons]
        simp [hhit]

/-- C1 (amended): the same-employee scan reports a conflict iff some other
row (the edited row excluded) of the same trimmed requester name whose
status is `Pendiente` or contains `Aprobado` — `Necesita Revisión` rows are
NOT considered — overlaps the candidate range under closed-interval overlap,
and the first matching row (in sheet order) wins. -/
theorem C1_sameEmployeeOverlap_characterization :
    ∀ (rows : List Solicitud) (empleado : String) (s e : Option Int) (cur : Int),
      ((hasOverlapPendingOrApprovedSameEmployee rows empleado s e cur).isSome = true ↔
        ∃ pr ∈ rows.enum, sameEmpHit empleado.strTrim s e cur pr.1 pr.2 = true) ∧
      (∀ x, hasOverlapPendingOrApprovedSameEmployee rows empleado s e cur = some x →
        ∃ l1 pr l2, rows.enum = l1 ++ pr :: l2 ∧
          sameEmpHit empleado.strTrim s e cur pr.1 pr.2 = true ∧
          x = ((pr.1 : Int) + 2, pr.2.estado) ∧
          ∀ q ∈ l1, sameEmpHit empleado.strTrim s e cur q.1 q.2 = false) := by
  intro rows empleado s e cur
  constructor
  · simp only [hasOverlapPendingOrApprovedSameEmployee, findSameEmp_eq, List.enum,
      Option.isSome_map', List.find?_isSome]
  · intro x hx
    rw [hasOverlapPendingOrApprovedSameEmployee, findSameEmp_eq] at hx
    rw [Option.map_eq_some'] at hx
    obtain ⟨pr, hfind, rfl⟩ := hx
    obtain ⟨l1, l2, he, hp, hall⟩ := find?_first _ _ _ hfind
    exact ⟨l1, pr, l2, by rw [List.enum]; exact he, hp, rfl, hall⟩

/-- C1 counterexample: a same-employee overlapping request in status
`Necesita Revisión` satisfies the claimed status set but the source scan
reports no conflict. -/
theorem C1_counterexample :
    claimedSameEmpConflict [c1Row] "Ana" (some 0) (some 0) (-1) = true ∧
    hasOverlapPendingOrApprovedSameEmployee [c1Row] "Ana" (some 0) (some 0) (-1) = none := by
  constructor
  · decide
  · decide

/-- Witness for C1 at a concrete input: a `Pendiente` overlapping row is
found. -/
theorem C1_sameEmployeeOverlap_witness :
    (hasOverlapPendingOrApprovedSameEmployee
      [{ c1Row with estado := "Pendiente" }] "Ana" (some 0) (some 0) (-1)).isSome = true := by
  exact (C1_sameEmployeeOverlap_characterization
    [{ c1Row with estado := "Pendiente" }] "Ana" (some 0) (some 0) (-1)).1.mpr
    ⟨(0, { c1Row with estado := "Pendiente" }), by simp [List.enum, List.enumFrom],
      by decide⟩

theorem map_congr_fun {α β : Type} (f g : α → β) (h : ∀ a, f a = g a) :
    ∀ l : List α, l.map f = l.map g := by
  intro l
  induction l with
  | nil => rfl
  | cons a t ih => simp only [List.map_cons, h a, ih]

theorem usedFor_go (name : String) :
    ∀ (rows : List Solicitud) (a : Int),
      rows.foldl
        (fun acc r =>
          if containsAprobado r.estado && r.empleado.strTrim == name then acc + r.dias
          else acc) a =
        a + ((rows.filter (fun r =>
            containsAprobado r.estado && r.empleado.strTrim == name)).map
          (fun r => r.dias)).sum := by
  intro rows
  induction rows with
  | nil => intro a; simp
  | cons r t ih =>
    intro a
    by_cases h : (containsAprobado r.estado && r.empleado.strTrim == name) = true
    · simp only [List.foldl_cons, List.filter_cons, h, if_true, List.map_cons,
        List.sum_cons, ih]
      ring
    · have h2 : (containsAprobado r.estado && r.empleado.strTrim == name) = false := by
        simpa using h
      simp only [List.foldl_cons, List.filter_cons, h2, Bool.false_eq_true, if_false]
      exact ih a

theorem usedFor_eq_sum (rows : List Solicitud) (name : String) :
    usedFor rows name =
      ((rows.filter (fun r =>
          containsAprobado r.estado && r.empleado.strTrim == name)).map
        (fun r => r.dias)).sum := by
  have h := usedFor_go name rows 0
  simpa [usedFor] using h

/-- C6: the recompute sets every employee's `usados` to the sum of `dias`
over requests whose estado contains `Aprobado` and whose trimmed empleado
equals the employee's trimmed name (0 when no such request exists), and
running it twice without an intervening mutation changes nothing. -/
theorem C6_recalcEmpleados_spec :
    (∀ st : State, (recalcEmpleados st).empleados = st.empleados.map (fun e =>
      { e with usados := ((st.solicitudes.filter (fun r =>
          containsAprobado r.estado && r.empleado.strTrim == e.name.strTrim)).map
            (fun r => r.dias)).sum })) ∧
    (∀ (st : State) (name : String),
      (∀ r ∈ st.solicitudes,
        (containsAprobado r.estado && r.empleado.strTrim == name) = false) →
      usedFor st.solicitudes name = 0) ∧
    (∀ st : State, recalcEmpleados (recalcEmpleados st) = recalcEmpleados st) := by
  refine ⟨?_, ?_, ?_⟩
  · intro st
    simp only [recalcEmpleados]
    exact map_congr_fun _ _ (fun e => by rw [usedFor_eq_sum]) st.empleados
  · intro st name hall
    rw [usedFor_eq_sum]
    have hf : st.solicitudes.filter (fun r =>
        containsAprobado r.estado && r.empleado.strTrim == name) = [] := by
      rw [List.filter_eq_nil_iff]
      intro a ha
      simp [hall a ha]
    rw [hf]
    simp
  · intro st
    simp only [recalcEmpleados, List.map_map]
    congr 1

/-- Witness for C6: a one-request, one-employee table where the recompute
yields `usados = 3`, and a name with no matching request yields 0. -/
theorem C6_recalcEmpleados_spec_witness :
    usedFor [{ c1Row with estado := "Aprobado", dias := 3 }] "Nadie" = 0 := by
  exact C6_recalcEmpleados_spec.2.1
    { solicitudes := [{ c1Row with estado := "Aprobado", dias := 3 }],
      empleados := [], hasSaldoCol := false, cal := [], nextEvId := 0 }
    "Nadie" (by decide)

theorem updateNth_get_same {α : Type} (f : α → α) :
    ∀ (l : List α) (i : Nat), (updateNth f l i)[i]? = (l[i]?).map f := by
  intro l
  induction l with
  | nil => intro i; cases i <;> simp [updateNth]
  | cons a t ih =>
    intro i
    cases i with
    | zero => simp [updateNth]
    | succ n => simp [updateNth, ih]

theorem getSol_setSolRow (st : State) (row : Int) (f : Solicitud → Solicitud) :
    getSol (setSolRow st row f) row = (getSol st row).map f := by
  unfold getSol setSolRow
  by_cases h : row < 2
  · simp [h]
  · simp [h, updateNth_get_same]

theorem updateNth_map_estado (g : Solicitud → Solicitud)
    (hg : ∀ r, (g r).estado = r.estado) :
    ∀ (l : List Solicitud) (i : Nat),
      (updateNth g l i).map (fun r => r.estado) = l.map (fun r => r.estado) := by
  intro l
  induction l with
  | nil => intro i; cases i <;> simp [updateNth]
  | cons a t ih =>
    intro i
    cases i with
    | zero => simp [updateNth, hg a]
    | succ n => simp [updateNth, ih]

theorem handleEstadoChange_estadoMap (st : State) (row : Int) (p : String) (env : Env) :
    (handleEstadoChange st row p env).solicitudes.map (fun r => r.estado) =
      st.solicitudes.map (fun r => r.estado) := by
  simp only [handleEstadoChange]
  split
  · split
    · rfl
    · simp only [setSolRow]
      by_cases h : row < 2
      · simp [h]
      · simp only [h, if_false]
        exact updateNth_map_estado
          (fun r => { r with eventId := some (freshEvId st) }) (fun r => rfl) _ _
  · split
    · rfl
    · split
      · rfl
      · simp only [setSolRow]
        by_cases h : row < 2
        · simp [h]
        · simp only [h, if_false]
          exact updateNth_map_estado
            (fun r => { r with eventId := none }) (fun r => rfl) _ _

theorem getSol_estadoMap (st : State) (row : Int) :
    (getSol st row).map (fun r => r.estado) =
      if row < 2 then none
      else (st.solicitudes.map (fun r => r.estado))[(row - 2).toNat]? := by
  unfold getSol
  by_cases h : row < 2
  · simp [h]
  · simp [h]

/-- C4: with balance enforcement enabled, an `Aprobado` decision whose
employee balance would go negative fails with an insufficient-balance error
naming the remaining and requested days, and nothing is written; an
`Aprobado (Excepción)` decision is never balance-checked and succeeds, the
new status being written to the row. -/
theorem C4_processDecision_balance :
    ∀ (st : State) (env : Env) (rowId : Int) (r : Solicitud),
      env.managers.contains env.userEmail = true →
      getSol st rowId = some r →
      ((getEmployeeTotals st r.empleado).remaining - r.dias < 0 →
        apiProcessRequest st env rowId "Aprobado" =
          (Except.error (Err.insufficientBalance
            (getEmployeeTotals st r.empleado).remaining r.dias), st, [])) ∧
      ((apiProcessRequest st env rowId "Aprobado (Excepción)").1 = Except.ok () ∧
        ((getSol (apiProcessRequest st env rowId "Aprobado (Excepción)").2.1 rowId).map
          (fun q => q.estado)) = some "Aprobado (Excepción)") := by
  intro st env rowId r hmgr hg
  have hrow : ¬ rowId < 2 := by
    intro hlt
    simp [getSol, hlt] at hg
  have hbeq : ("Aprobado (Excepción)" == "Aprobado") = false := by decide
  have hmem : env.userEmail ∈ env.managers := by simpa using hmgr
  constructor
  · intro hbal
    simp [apiProcessRequest, hmgr, hmem, hg, ENFORCE_BALANCE_BEFORE_EVENT, hbal]
  · have hmain : (apiProcessRequest st env rowId "Aprobado (Excepción)") =
        (Except.ok (), recalcEmpleados (handleEstadoChange (setSolRow st rowId
          (fun q => { q with estado := "Aprobado (Excepción)" })) rowId r.estado env),
          []) := by
      simp [apiProcessRequest, hmgr, hmem, hg, hbeq]
    rw [hmain]
    refine ⟨rfl, ?_⟩
    have hrec : getSol (recalcEmpleados (handleEstadoChange (setSolRow st rowId
        (fun q => { q with estado := "Aprobado (Excepción)" })) rowId r.estado env))
        rowId =
        getSol (handleEstadoChange (setSolRow st rowId
          (fun q => { q with estado := "Aprobado (Excepción)" })) rowId r.estado env)
        rowId := rfl
    rw [hrec, getSol_estadoMap, if_neg hrow, handleEstadoChange_estadoMap]
    have hback := getSol_estadoMap (setSolRow st rowId
      (fun q => { q with estado := "Aprobado (Excepción)" })) rowId
    rw [if_neg hrow] at hback
    rw [← hback, getSol_setSolRow, hg]
    rfl

/-- Witness for C4 at a concrete table: Ana has 3 days remaining but asks
for 5; plain approval fails naming 3 and 5, exception approval succeeds. -/
theorem C4_processDecision_balance_witness :
    apiProcessRequest c4St c4Env 2 "Aprobado" =
      (Except.error (Err.insufficientBalance 3 5), c4St, []) ∧
    (apiProcessRequest c4St c4Env 2 "Aprobado (Excepción)").1 = Except.ok () := by
  constructor
  · exact (C4_processDecision_balance c4St c4Env 2 c4Row (by decide) (by decide)).1
      (by decide)
  · exact (C4_processDecision_balance c4St c4Env 2 c4Row (by decide) (by decide)).2.1

theorem getSol_mk (sols : List Solicitud) (emps : List Empleado) (hs : Bool)
    (c : List (String × CalEvent)) (n : Nat) (row : Int) :
    getSol ⟨sols, emps, hs, c, n⟩ row =
      if row < 2 then none else sols[(row - 2).toNat]? := rfl

theorem getSol_recalc (st : State) (row : Int) :
    getSol (recalcEmpleados st) row = getSol st row := rfl

theorem calLookup_calDelete (cal : List (String × CalEvent)) (id : String) :
    calLookup (calDelete cal id) id = none := by
  induction cal with
  | nil => rfl
  | cons p t ih =>
    simp only [calDelete, List.filter_cons]
    by_cases h : (p.1 != id) = true
    · rw [if_pos h]
      have h2 : (p.1 == id) = false := by
        cases hb : p.1 == id
        · rfl
        · rw [bne, hb] at h
          simp at h
      simp only [calLookup, List.find?, h2]
      simp only [calLookup, calDelete] at ih
      exact ih
    · rw [if_neg h]
      simpa [calDelete] using ih

/-- C3 failing input: the caller is a manager (`boss@x.com` is on the
roster) but not the owner of the pending request, and cancellation is
denied — the source consults only the request's own email, never the
manager roster, contradicting its own doc comment. -/
theorem C3_manager_cancel_denied :
    apiCancelRequest c4St c4Env 2 =
      (Except.error Err.notFoundOrDenied, c4St, [Ev.lockWait, Ev.lockRelease]) := by
  rfl

/-- C8 counterexample: the owner cancels a pending request holding event
reference `e1`; the external delete throws, the cancellation still succeeds
with status `Cancelado`, but the stored reference is NOT cleared. -/
theorem C8_counterexample :
    (apiCancelRequest c8St c8Env 2).1 = Except.ok () ∧
    ((getSol (apiCancelRequest c8St c8Env 2).2.1 2).map (fun q => q.estado)) =
      some "Cancelado" ∧
    ((getSol (apiCancelRequest c8St c8Env 2).2.1 2).bind (fun q => q.eventId)) =
      some "e1" := by
  refine ⟨rfl, by decide, by decide⟩

theorem getSol_withCal (st : State) (c : List (String × CalEvent)) (row : Int) :
    getSol { st with cal := c } row = getSol st row := rfl

theorem setSolRow_cal (st : State) (row : Int) (f : Solicitud → Solicitud) :
    (setSolRow st row f).cal = st.cal := rfl

theorem recalc_cal (st : State) : (recalcEmpleados st).cal = st.cal := rfl

/-- C8 (amended): cancelling an owned `Pendiente`/`Necesita Revisión`
request succeeds and sets the status to `Cancelado`; the stored calendar
reference is cleared whenever the delete attempt does not throw (including
when the referenced event no longer exists), but when the delete throws the
exception is caught and the reference is left in place. -/
theorem C8_cancel_calendar_cleanup :
    ∀ (st : State) (env : Env) (rowId : Int) (r : Solicitud),
      env.rateLimited = false → env.lockBusy = false →
      getSol st rowId = some r →
      (r.email.strTrim.strToLower == env.userEmail.strToLower) = true →
      r.estado = "Pendiente" ∨ r.estado = "Necesita Revisión" →
      ((apiCancelRequest st env rowId).1 = Except.ok () ∧
        ((getSol (apiCancelRequest st env rowId).2.1 rowId).map (fun q => q.estado)) =
          some "Cancelado") ∧
      (r.eventId = none →
        ((getSol (apiCancelRequest st env rowId).2.1 rowId).bind (fun q => q.eventId)) =
          none) ∧
      (∀ id, r.eventId = some id → calLookup st.cal id = none →
        ((getSol (apiCancelRequest st env rowId).2.1 rowId).bind (fun q => q.eventId)) =
          none) ∧
      (∀ id, r.eventId = some id → (calLookup st.cal id).isSome = true →
        env.calDeleteFails = false →
        ((getSol (apiCancelRequest st env rowId).2.1 rowId).bind (fun q => q.eventId)) =
          none ∧ calLookup (apiCancelRequest st env rowId).2.1.cal id = none) ∧
      (∀ id, r.eventId = some id → (calLookup st.cal id).isSome = true →
        env.calDeleteFails = true →
        ((getSol (apiCancelRequest st env rowId).2.1 rowId).bind (fun q => q.eventId)) =
          some id) := by
  intro st env rowId r h1 h2 hg how hPN
  have hrow : ¬ rowId < 2 := by
    intro hlt
    simp [getSol, hlt] at hg
  have hst : (r.estado != "Pendiente" && r.estado != "Necesita Revisión") = false := by
    rcases hPN with h | h <;> simp [h]
  refine ⟨?_, ?_, ?_, ?_, ?_⟩
  · rcases heid : r.eventId with _ | id
    · constructor <;>
        simp [apiCancelRequest, h1, h2, hg, how, hst, heid, getSol_recalc,
          getSol_setSolRow, getSol_withCal]
    · by_cases hdel : ((calLookup st.cal id).isSome && env.calDeleteFails) = true
      · constructor <;>
          simp [apiCancelRequest, h1, h2, hg, how, hst, heid, hdel, getSol_recalc,
            getSol_setSolRow, getSol_withCal, setSolRow_cal]
      · constructor <;>
          simp [apiCancelRequest, h1, h2, hg, how, hst, heid, hdel, getSol_recalc,
            getSol_setSolRow, getSol_withCal, setSolRow_cal]
  · intro heid
    simp [apiCancelRequest, h1, h2, hg, how, hst, heid, getSol_recalc,
      getSol_setSolRow, getSol_withCal]
  · intro id heid hlook
    simp [apiCancelRequest, h1, h2, hg, how, hst, heid, hlook, getSol_recalc,
      getSol_setSolRow, getSol_withCal, setSolRow_cal]
  · intro id heid hlook hfail
    constructor
    · simp [apiCancelRequest, h1, h2, hg, how, hst, heid, hlook, hfail, getSol_recalc,
        getSol_setSolRow, getSol_withCal, setSolRow_cal]
    · simp [apiCancelRequest, h1, h2, hg, how, hst, heid, hlook, hfail, getSol_recalc,
        getSol_setSolRow, getSol_withCal, setSolRow_cal, recalc_cal,
        calLookup_calDelete]
  · intro id heid hlook hfail
    simp [apiCancelRequest, h1, h2, hg, how, hst, heid, hlook, hfail, getSol_recalc,
      getSol_setSolRow, getSol_withCal, setSolRow_cal]

/-- Witness for C8: when the delete succeeds, the reference is cleared. -/
theorem C8_cancel_calendar_cleanup_witness :
    ((getSol (apiCancelRequest c8St { c8Env with calDeleteFails := false } 2).2.1 2).bind
      (fun q => q.eventId)) = none := by
  exact ((C8_cancel_calendar_cleanup c8St { c8Env with calDeleteFails := false } 2 c8Row
    rfl rfl (by decide) (by decide) (Or.inl rfl)).2.2.2.1 "e1" rfl (by decide) rfl).1

/-- C2 (checks modelled from the spec, see `editChecks`): an Edit succeeds
only when the caller owns the request and its status is `Pendiente` or
`Necesita Revisión`; any other caller or status yields an error and leaves
the table unchanged. -/
theorem C2_edit_owner_status :
    ∀ (st : State) (env : Env) (rowId : Int) (s e : Int) (r : Solicitud),
      getSol st rowId = some r →
      (((apiEditRequest st env rowId s e).1 = Except.ok () →
        (r.email.strTrim.strToLower == env.userEmail.strToLower) = true ∧
        (r.estado = "Pendiente" ∨ r.estado = "Necesita Revisión")) ∧
      ((¬ (r.email.strTrim.strToLower == env.userEmail.strToLower) = true ∨
         (r.estado ≠ "Pendiente" ∧ r.estado ≠ "Necesita Revisión")) →
        (∃ err, (apiEditRequest st env rowId s e).1 = Except.error err) ∧
        (apiEditRequest st env rowId s e).2.1 = st)) := by
  intro st env rowId s e r hg
  have hfail : (¬ (r.email.strTrim.strToLower == env.userEmail.strToLower) = true ∨
      (r.estado ≠ "Pendiente" ∧ r.estado ≠ "Necesita Revisión")) →
      (∃ err, (apiEditRequest st env rowId s e).1 = Except.error err) ∧
      (apiEditRequest st env rowId s e).2.1 = st := by
    intro hbad
    cases henv : env.rateLimited with
    | true =>
      exact ⟨⟨Err.rateLimited, by simp [apiEditRequest, henv]⟩,
        by simp [apiEditRequest, henv]⟩
    | false =>
      cases hbusy : env.lockBusy with
      | true =>
        exact ⟨⟨Err.busy, by simp [apiEditRequest, henv, hbusy]⟩,
          by simp [apiEditRequest, henv, hbusy]⟩
      | false =>
        have hchk : ∃ err, editChecks st env rowId s e = some err := by
          rcases hbad with hbad | hbad
          · have hfalse : (r.email.strTrim.strToLower == env.userEmail.strToLower)
                = false := by
              cases h : (r.email.strTrim.strToLower == env.userEmail.strToLower)
              · rfl
              · exact absurd h hbad
            exact ⟨Err.editDenied, by simp [editChecks, hg, hfalse]⟩
          · by_cases hown : (r.email.strTrim.strToLower == env.userEmail.strToLower)
                = true
            · have hst : (r.estado != "Pendiente" &&
                  r.estado != "Necesita Revisión") = true := by
                simp [hbad.1, hbad.2]
              exact ⟨Err.invalidEditState r.estado,
                by simp [editChecks, hg, hown, hst]⟩
            · have hfalse : (r.email.strTrim.strToLower == env.userEmail.strToLower)
                  = false := by
                cases h : (r.email.strTrim.strToLower == env.userEmail.strToLower)
                · rfl
                · exact absurd h hown
              exact ⟨Err.editDenied, by simp [editChecks, hg, hfalse]⟩
        obtain ⟨err, herr⟩ := hchk
        exact ⟨⟨err, by simp [apiEditRequest, henv, hbusy, herr]⟩,
          by simp [apiEditRequest, henv, hbusy, herr]⟩
  refine ⟨?_, hfail⟩
  intro hok
  by_contra hneg
  rw [not_and_or] at hneg
  have hbad : (¬ (r.email.strTrim.strToLower == env.userEmail.strToLower) = true ∨
      (r.estado ≠ "Pendiente" ∧ r.estado ≠ "Necesita Revisión")) := by
    rcases hneg with h | h
    · exact Or.inl h
    · push_neg at h
      exact Or.inr h
  obtain ⟨⟨err, herr⟩, _⟩ := hfail hbad
  rw [herr] at hok
  simp at hok

/-- Witness for C2: a manager who does not own the pending request cannot
edit it, and the table is unchanged. -/
theorem C2_edit_owner_status_witness :
    (∃ err, (apiEditRequest c4St c4Env 2 5 6).1 = Except.error err) ∧
    (apiEditRequest c4St c4Env 2 5 6).2.1 = c4St := by
  exact (C2_edit_owner_status c4St c4Env 2 5 6 c4Row (by decide)).2
    (Or.inl (by decide))

theorem getSol_withCalNext (st : State) (c : List (String × CalEvent)) (n : Nat)
    (row : Int) :
    getSol { st with cal := c, nextEvId := n } row = getSol st row := rfl

/-- C7: for a row in an approved state, the side-effect step titles the
event with the employee name flagged `(EXCEPTION)` exactly for the
exception variant; when the stored reference resolves to a live event it
updates that event to the end-exclusive range `[start, end+1)`, and when no
reference exists (or it is stale) it creates a new all-day event with that
title and range and persists the returned id on the row. -/
theorem C7_handleEstadoChange_calendar :
    ∀ (st : State) (rowId : Int) (p : String) (env : Env) (r : Solicitud),
      getSol st rowId = some r →
      (r.estado = "Aprobado" ∨ r.estado = "Aprobado (Excepción)") →
      ((∀ id ev, r.eventId = some id → calLookup st.cal id = some ev →
         handleEstadoChange st rowId p env =
           { st with cal := (calUpdate st.cal id (eventTitle r.estado r.empleado)
               r.ini (r.fin.map (· + 1))) }) ∧
       ((r.eventId = none ∨ (∃ id, r.eventId = some id ∧ calLookup st.cal id = none)) →
         (handleEstadoChange st rowId p env).cal =
           st.cal ++ [(freshEvId st,
             { title := eventTitle r.estado r.empleado, startD := r.ini
               endD := r.fin.map (· + 1) })] ∧
         ((getSol (handleEstadoChange st rowId p env) rowId).bind (fun q => q.eventId)) =
           some (freshEvId st)) ∧
       (∀ emp : String,
         eventTitle "Aprobado (Excepción)" emp = "Vacations (EXCEPTION): " ++ emp ∧
         eventTitle "Aprobado" emp = "Vacations: " ++ emp)) := by
  intro st rowId p env r hg happ
  have hcond : (r.estado == "Aprobado" || r.estado == "Aprobado (Excepción)") = true := by
    rcases happ with h | h <;> simp [h]
  refine ⟨?_, ?_, ?_⟩
  · intro id ev heid hlook
    simp [handleEstadoChange, hg, hcond, heid, hlook]
  · intro hcase
    rcases hcase with heid | ⟨id, heid, hlook⟩
    · constructor
      · simp [handleEstadoChange, hg, hcond, heid, setSolRow_cal]
      · simp [handleEstadoChange, hg, hcond, heid, getSol_setSolRow, getSol_withCalNext]
    · constructor
      · simp [handleEstadoChange, hg, hcond, heid, hlook, setSolRow_cal]
      · simp [handleEstadoChange, hg, hcond, heid, hlook, getSol_setSolRow,
          getSol_withCalNext]
  · intro emp
    have hne : ("Aprobado" == "Aprobado (Excepción)") = false := by decide
    exact ⟨by simp [eventTitle], by simp [eventTitle, hne]⟩

/-- Witness for C7: approving Ana's request with an empty calendar creates
event `ev0` spanning `[10, 17)` titled with her name and stores `ev0` on
the row. -/
theorem C7_handleEstadoChange_calendar_witness :
    (handleEstadoChange c7St 2 "Pendiente" c4Env).cal =
      [("ev0", { title := "Vacations: Ana", startD := some 10, endD := some 17 })] ∧
    ((getSol (handleEstadoChange c7St 2 "Pendiente" c4Env) 2).bind (fun q => q.eventId)) =
      some "ev0" := by
  have h := (C7_handleEstadoChange_calendar c7St 2 "Pendiente" c4Env
    { c4Row with estado := "Aprobado" } (by decide) (Or.inl rfl)).2.1 (Or.inl rfl)
  exact ⟨h.1, h.2⟩

/-- C9 (amended): Create, Cancel and Edit hold the global lock around their
whole body — once past the pre-lock rate-limit check their lock trace is
exactly acquire-then-release, on success and failure alike, and a busy lock
surfaces as the busy error with no lock event — while the manager decision
operation (`apiProcessRequest`) emits no lock event at all. -/
theorem C9_locking :
    (∀ (st : State) (env : Env) (s e : Int), env.rateLimited = false →
      (env.lockBusy = true →
        (apiCreateRequest st env s e).1 = Except.error Err.busy ∧
        (apiCreateRequest st env s e).2.2 = []) ∧
      (env.lockBusy = false →
        (apiCreateRequest st env s e).2.2 = [Ev.lockWait, Ev.lockRelease])) ∧
    (∀ (st : State) (env : Env) (rowId : Int), env.rateLimited = false →
      (env.lockBusy = true →
        (apiCancelRequest st env rowId).1 = Except.error Err.busy ∧
        (apiCancelRequest st env rowId).2.2 = []) ∧
      (env.lockBusy = false →
        (apiCancelRequest st env rowId).2.2 = [Ev.lockWait, Ev.lockRelease])) ∧
    (∀ (st : State) (env : Env) (rowId s e : Int), env.rateLimited = false →
      (env.lockBusy = true →
        (apiEditRequest st env rowId s e).1 = Except.error Err.busy ∧
        (apiEditRequest st env rowId s e).2.2 = []) ∧
      (env.lockBusy = false →
        (apiEditRequest st env rowId s e).2.2 = [Ev.lockWait, Ev.lockRelease])) ∧
    (∀ (st : State) (env : Env) (rowId : Int) (action : String),
      (apiProcessRequest st env rowId action).2.2 = []) := by
  refine ⟨?_, ?_, ?_, ?_⟩
  · intro st env s e h1
    exact ⟨fun h2 => ⟨by simp [apiCreateRequest, h1, h2],
        by simp [apiCreateRequest, h1, h2]⟩,
      fun h2 => by simp [apiCreateRequest, h1, h2]⟩
  · intro st env rowId h1
    exact ⟨fun h2 => ⟨by simp [apiCancelRequest, h1, h2],
        by simp [apiCancelRequest, h1, h2]⟩,
      fun h2 => by simp [apiCancelRequest, h1, h2]⟩
  · intro st env rowId s e h1
    exact ⟨fun h2 => ⟨by simp [apiEditRequest, h1, h2],
        by simp [apiEditRequest, h1, h2]⟩,
      fun h2 => by simp [apiEditRequest, h1, h2]⟩
  · intro st env rowId action
    simp only [apiProcessRequest]
    split
    · rfl
    · split
      · rfl
      · rfl

/-- C9 counterexample: a manager rejection at a concrete table mutates the
request row (status `Pendiente` becomes `Rechazado`) while its lock trace
is empty — the decision operation never acquires the mutual-exclusion
lock. -/
theorem C9_counterexample :
    (apiProcessRequest c4St c4Env 2 "Rechazado").1 = Except.ok () ∧
    ((getSol (apiProcessRequest c4St c4Env 2 "Rechazado").2.1 2).map
      (fun q => q.estado)) = some "Rechazado" ∧
    ((getSol c4St 2).map (fun q => q.estado)) = some "Pendiente" ∧
    (apiProcessRequest c4St c4Env 2 "Rechazado").2.2 = [] := by
  refine ⟨rfl, by decide, by decide, rfl⟩

/-- Witness for C9: a busy lock makes Create fail with the busy error, and
a successful Cancel brackets its work in acquire/release. -/
theorem C9_locking_witness :
    (apiCreateRequest c4St { c4Env with lockBusy := true } 5 6).1 =
      Except.error Err.busy ∧
    (apiCancelRequest c8St c8Env 2).2.2 = [Ev.lockWait, Ev.lockRelease] := by
  constructor
  · exact ((C9_locking.1 c4St { c4Env with lockBusy := true } 5 6 rfl).1 rfl).1
  · exact (C9_locking.2.1 c8St c8Env 2 rfl).2 rfl

/-- C10: `processRequestRow_` never propagates an exception — its whole
body runs inside try/catch, so it always returns the notification record
(even when the body signals a pending exception), and Create and Edit
report success for every failure-injection point inside row processing. -/
theorem C10_rowProcessing_swallows_errors :
    (∀ (st : State) (row : Int) (env : Env),
      processRequestRow st row env =
        ((processRequestRowBody st row env).1, (processRequestRowBody st row env).2.1)) ∧
    (∀ (st : State) (env : Env) (s e : Int),
      env.rateLimited = false → env.lockBusy = false → env.today ≤ s →
      hasOverlapPendingOrApprovedSameEmployee st.solicitudes
        (if buscarNombrePorEmail st env.userEmail == "" then env.userEmail
         else buscarNombrePorEmail st env.userEmail) (some s) (some e) (-1) = none →
      ∃ rec : NotifyRec, (apiCreateRequest st env s e).1 = Except.ok rec) ∧
    (∀ (st : State) (env : Env) (rowId s e : Int),
      env.rateLimited = false → env.lockBusy = false →
      editChecks st env rowId s e = none →
      (apiEditRequest st env rowId s e).1 = Except.ok ()) := by
  refine ⟨fun st row env => rfl, ?_, ?_⟩
  · intro st env s e h1 h2 h3 h4
    have hpast : ¬ (s < env.today) := by omega
    simp only [apiCreateRequest, h1, h2, Bool.false_eq_true, if_false, hpast,
      ENFORCE_MIN_ADVANCE_DAYS, Bool.false_and, h4]
    exact ⟨_, rfl⟩
  · intro st env rowId s e h1 h2 h3
    simp [apiEditRequest, h1, h2, h3]

/-- Witness for C10: a concrete Create still succeeds when a storage
exception is injected at the sort step of row processing. -/
theorem C10_rowProcessing_swallows_errors_witness :
    ∃ rec : NotifyRec,
      (apiCreateRequest c4St
        { c8Env with rowProcFail := some FailPoint.sortStep } 20 21).1 =
        Except.ok rec := by
  exact C10_rowProcessing_swallows_errors.2.1 c4St
    { c8Env with rowProcFail := some FailPoint.sortStep } 20 21 rfl rfl
    (by decide) (by decide)
